import Mathlib

/-!
Shallow embedding of `src/src/retry.decorator.ts` (a retry execution engine:
attempt loop, error classification, fixed/exponential backoff, cooperative
cancellation) together with theorems checking the specification's claims.

Modelling conventions:
* JS numbers used as durations and multipliers are modelled as `ℚ`.
* A thrown JS error value is modelled by `Err`: `kinds` is the identity tags of
  the constructors in its prototype chain (so `e instanceof C` becomes
  membership of `C`'s tag), `message` its message.
* `undefined` option fields are `Option.none`.
* The `AbortSignal` is modelled by a `SignalTrace` recording, for every loop
  iteration `i`, what the engine observes at its three observation points:
  the value of `signal.aborted` at the top-of-loop check, its value at the
  pre-sleep check, and whether (and after how many ms) the abort event fires
  during the sleep of iteration `i`.
* `await fn.apply(context, args)` for attempt `i` is modelled by `op i`, an
  `Except Err α` (the operation is an opaque callable; attempt `i` either
  resolves with a value or rejects with an error).
* Real time is abstracted to the list of slept intervals: an execution records
  `(nominal, actual)` for every sleep it performs; an interrupted sleep
  records the time at which the abort event fired as its actual duration.
-/

namespace RetryDecorator

/-- A thrown error value: identity tags of its prototype chain and its message. -/
structure Err where
  kinds : List Nat
  message : String
  deriving DecidableEq, Repr

/-- `e instanceof C` where `C` is identified by tag `k`. -/
def instanceOfKind (e : Err) (k : Nat) : Bool :=
  e.kinds.contains k

/-- `enum BackOffPolicy` from the source. -/
inductive BackOffPolicy where
  | FixedBackOffPolicy
  | ExponentialBackOffPolicy
  deriving DecidableEq, Repr

/-- `exponentialOption?: { maxInterval: number; multiplier: number }`. -/
structure ExponentialOption where
  maxInterval : ℚ
  multiplier : ℚ
  deriving DecidableEq, Repr

/-- `interface RetryOptions` from the source.  The `signal` field is not part
of this record: the signal's observable behaviour is a `SignalTrace` passed to
the execution separately. -/
structure RetryOptions where
  maxAttempts : Int
  backOffPolicy : Option BackOffPolicy := none
  backOff : Option ℚ := none
  doRetry : Option (Err → Bool) := none
  value : Option (List Nat) := none
  exponentialOption : Option ExponentialOption := none
  reraise : Option Bool := none

/-- `class MaxAttemptsError extends Error`. -/
structure MaxAttemptsError where
  code : String
  retryCount : Int
  originalError : Err
  message : String
  deriving DecidableEq, Repr

/-- The `MaxAttemptsError` constructor: `code = '429'` and the message built by
`Max retry reached: ${retryCount}, original error: ${originalError.message}`. -/
def mkMaxAttemptsError (originalError : Err) (retryCount : Int) : MaxAttemptsError :=
  { code := "429"
    retryCount := retryCount
    originalError := originalError
    message := "Max retry reached: " ++ toString retryCount ++ ", original error: "
      ++ originalError.message }

/-- `class AbortError extends Error`. -/
structure AbortError where
  code : String
  name : String
  message : String
  deriving DecidableEq, Repr

/-- The `AbortError` constructor: `code = 'ABORT_ERR'`, `name = 'AbortError'`. -/
def mkAbortError (message : String) : AbortError :=
  { code := "ABORT_ERR", name := "AbortError", message := message }

/-- JS truthiness of an optional number: `undefined` and `0` are falsy. -/
def jsFalsy : Option ℚ → Bool
  | none => true
  | some b => b == 0

/-- `canRetry`, first guard: `options.doRetry && !options.doRetry(e)`. -/
def doRetryForbids (opts : RetryOptions) (e : Err) : Bool :=
  match opts.doRetry with
  | some p => !(p e)
  | none => false

/-- `canRetry`, second guard:
`options.value?.length && !options.value.some(errorType => e instanceof errorType)`. -/
def valueFilterForbids (opts : RetryOptions) (e : Err) : Bool :=
  match opts.value with
  | some l => decide (l.length ≠ 0) && !(l.any (instanceOfKind e))
  | none => false

/-- `function canRetry(e: Error): boolean` from the source. -/
def canRetry (opts : RetryOptions) (e : Err) : Bool :=
  if doRetryForbids opts e then false
  else if valueFilterForbids opts e then false
  else true

/-- `function setExponentialBackOffPolicyDefault`:
`!opts.backOff && (opts.backOff = 1000)` followed by
`opts.exponentialOption = { ...{ maxInterval: 2000, multiplier: 2 }, ...opts.exponentialOption }`
(the caller's object, having both fields, wins the merge when present). -/
def setExponentialBackOffPolicyDefault (opts : RetryOptions) : RetryOptions :=
  let opts1 := if jsFalsy opts.backOff then { opts with backOff := some 1000 } else opts
  { opts1 with
      exponentialOption :=
        some (opts1.exponentialOption.getD { maxInterval := 2000, multiplier := 2 }) }

/-- The option normalisation performed by `createRetryHandler` before any
execution: the exponential defaults are injected when the policy is
`ExponentialBackOffPolicy`. -/
def createRetryHandler (opts : RetryOptions) : RetryOptions :=
  if opts.backOffPolicy = some BackOffPolicy.ExponentialBackOffPolicy then
    setExponentialBackOffPolicyDefault opts
  else opts

/-- What the engine observes of `options.signal` in loop iteration `i`:
`abortedAtCheck i` is `signal?.aborted` at the top-of-iteration check,
`abortedBeforeSleep i` is `signal?.aborted` at the check preceding the sleep,
and `abortDuringSleep i = some t` means the abort event fires `t` ms into the
sleep of iteration `i` (interrupting it), while `none` means the sleep, if
any, runs to completion. -/
structure SignalTrace where
  abortedAtCheck : Nat → Bool
  abortedBeforeSleep : Nat → Bool
  abortDuringSleep : Nat → Option ℚ

/-- A signal that is never aborted. -/
def neverAborted : SignalTrace :=
  { abortedAtCheck := fun _ => false
    abortedBeforeSleep := fun _ => false
    abortDuringSleep := fun _ => none }

/-- How one `execute` call terminates: the operation's value, the original
error unwrapped, a `MaxAttemptsError`, an `AbortError`, or the implicit
`undefined` the loop returns when it runs zero iterations. -/
inductive RetryOutcome (α : Type) where
  | success : α → RetryOutcome α
  | original : Err → RetryOutcome α
  | maxAttemptsE : MaxAttemptsError → RetryOutcome α
  | abortE : AbortError → RetryOutcome α
  | fallthrough : RetryOutcome α
  deriving DecidableEq, Repr

/-- Observable record of one `execute` call: its outcome, the number of times
the wrapped operation was invoked, and the `(nominal, actual)` duration of
every sleep it performed, in order. -/
structure ExecTrace (α : Type) where
  outcome : RetryOutcome α
  invocations : Nat
  sleeps : List (ℚ × ℚ)
  deriving DecidableEq, Repr

/-- The backoff update at the bottom of the loop body: under
`ExponentialBackOffPolicy`,
`backOff = Math.min(backOff * Math.pow(multiplier, i), maxInterval)`;
otherwise `backOff` is unchanged.  (When the policy is exponential the
normalisation has always set `exponentialOption`; the `getD` default is dead.) -/
def nextBackOff (opts : RetryOptions) (backOff : Option ℚ) (i : Nat) : Option ℚ :=
  if opts.backOffPolicy = some BackOffPolicy.ExponentialBackOffPolicy then
    backOff.map fun b =>
      min (b * (opts.exponentialOption.getD ⟨2000, 2⟩).multiplier ^ i)
        (opts.exponentialOption.getD ⟨2000, 2⟩).maxInterval
  else backOff

/-- The body of `retryAsync`'s `for` loop, one constructor application per
iteration.  `i` is the loop index, `fuel` the number of iterations the loop
has left (`retryAsync` starts it at `(maxAttempts + 1).toNat`, the number of
times `i < maxAttempts + 1` holds from `i = 0`), `backOff` the current value
of the local `backOff` variable.  Mirrors the source line by line:
abort check, invoke, exhaustion check, classification, pre-sleep abort check,
`if (backOff)` sleep (interruptible), exponential update, next iteration. -/
def retryGo (opts : RetryOptions) (op : Nat → Except Err α) (tr : SignalTrace) :
    Nat → Nat → Option ℚ → ExecTrace α
  | _, 0, _ => ⟨.fallthrough, 0, []⟩
  | i, fuel + 1, backOff =>
    if tr.abortedAtCheck i then ⟨.abortE (mkAbortError "Retry operation aborted"), 0, []⟩
    else
      match op i with
      | .ok v => ⟨.success v, 1, []⟩
      | .error e =>
        if (i : Int) = opts.maxAttempts then
          if opts.reraise.getD false then ⟨.original e, 1, []⟩
          else ⟨.maxAttemptsE (mkMaxAttemptsError e (i : Int)), 1, []⟩
        else if canRetry opts e = false then ⟨.original e, 1, []⟩
        else if tr.abortedBeforeSleep i then
          ⟨.abortE (mkAbortError "Retry operation aborted"), 1, []⟩
        else
          match backOff with
          | none =>
            let rest := retryGo opts op tr (i + 1) fuel (nextBackOff opts none i)
            ⟨rest.outcome, rest.invocations + 1, rest.sleeps⟩
          | some b =>
            if b = 0 then
              let rest := retryGo opts op tr (i + 1) fuel (nextBackOff opts (some b) i)
              ⟨rest.outcome, rest.invocations + 1, rest.sleeps⟩
            else
              match tr.abortDuringSleep i with
              | some t => ⟨.abortE (mkAbortError "Retry operation aborted"), 1, [(b, t)]⟩
              | none =>
                let rest := retryGo opts op tr (i + 1) fuel (nextBackOff opts (some b) i)
                ⟨rest.outcome, rest.invocations + 1, (b, b) :: rest.sleeps⟩

/-- `async function retryAsync(fn, context, args)`: the loop entered at
`i = 0` with the local `backOff` initialised from the (normalised) options. -/
def retryAsync (opts : RetryOptions) (op : Nat → Except Err α) (tr : SignalTrace) :
    ExecTrace α :=
  retryGo opts op tr 0 (opts.maxAttempts + 1).toNat opts.backOff

/-- One call of the function `createRetryHandler(options)` returns: the engine
run against the normalised options. -/
def execute (opts : RetryOptions) (op : Nat → Except Err α) (tr : SignalTrace) :
    ExecTrace α :=
  retryAsync (createRetryHandler opts) op tr

/-- The value of the local `backOff` variable after `k` further iterations of
the update, starting at iteration `i` with value `b`. -/
def backOffIter (opts : RetryOptions) : Option ℚ → Nat → Nat → Option ℚ
  | b, _, 0 => b
  | b, i, k + 1 => backOffIter opts (nextBackOff opts b i) (i + 1) k

/-- The value of the local `backOff` variable when loop iteration `i` starts. -/
def backOffAt (opts : RetryOptions) (i : Nat) : Option ℚ :=
  backOffIter opts opts.backOff 0 i

/-- The sleep record an uninterrupted iteration contributes: nothing when
`backOff` is falsy, one completed sleep of the nominal duration otherwise. -/
def sleepEntry : Option ℚ → List (ℚ × ℚ)
  | none => []
  | some b => if b = 0 then [] else [(b, b)]

/-- The sleep records contributed by `k` consecutive uninterrupted retrying
iterations starting at iteration `i` with `backOff` value `b`. -/
def sleepsSeg (opts : RetryOptions) : Option ℚ → Nat → Nat → List (ℚ × ℚ)
  | _, _, 0 => []
  | b, i, k + 1 => sleepEntry b ++ sleepsSeg opts (nextBackOff opts b i) (i + 1) k

/-- The signal is not observed aborted at any of iteration `j`'s three
observation points. -/
def cleanIter (tr : SignalTrace) (j : Nat) : Prop :=
  tr.abortedAtCheck j = false ∧ tr.abortedBeforeSleep j = false ∧
    tr.abortDuringSleep j = none

/-- Attempt `j` rejects with an error the classifier accepts for retry. -/
def failsRetryably (opts : RetryOptions) (op : Nat → Except Err α) (j : Nat) : Prop :=
  ∃ e, op j = Except.error e ∧ canRetry opts e = true

/-- The nominal delay the engine actually sleeps before retry `i` under the
exponential policy with base `b`, cap `M` and multiplier `m`: the first delay
is the base itself, and each following delay is the previous one scaled by
`m ^ i` and capped at `M` (the exponent being the index of the iteration that
performed the update). -/
def expDelay (b M m : ℚ) : Nat → ℚ
  | 0 => b
  | k + 1 => min (expDelay b M m k * m ^ k) M

/-- Jitter type names accepted by the configuration surface. -/
inductive JitterType where
  | none
  | full
  | equal
  | decorrelated
  deriving DecidableEq, Repr

/-- Modelled from the spec: the jitter strategy (`useJitter`, `jitterType`) is
exercised by the repository's test suite but absent from
`src/src/retry.decorator.ts` (its `RetryOptions` has neither field and
`retryAsync` sleeps the nominal delay verbatim), so this follows the spec's
words. Given one uniform draw `rand` in `[0, 1)`, a nominal delay `d`, the
base delay `base`, the cap `maxInterval` and the previous actual delay `prev`:
disabled jitter returns `d` verbatim; the type defaults to full when enabled
and unspecified; full is uniform in `[0, d)`; equal is `d/2` plus uniform in
`[0, d/2)`; decorrelated is uniform in `[base, prev * 3)` capped at
`maxInterval`. -/
def applyJitter (useJitter : Option Bool) (jitterType : Option JitterType)
    (base maxInterval prev rand d : ℚ) : ℚ :=
  if useJitter.getD false = false then d
  else
    match jitterType.getD JitterType.full with
    | JitterType.none => d
    | JitterType.full => rand * d
    | JitterType.equal => d / 2 + rand * (d / 2)
    | JitterType.decorrelated => min maxInterval (base + rand * (prev * 3 - base))

/-! Concrete fixtures used by witnesses and counterexamples. -/

/-- A plain error whose prototype chain carries only tag `1`. -/
def errPlain : Err := ⟨[1], "rejected"⟩

/-- An operation that rejects with `errPlain` on every attempt. -/
def opAlwaysFail : Nat → Except Err Nat := fun _ => Except.error errPlain

/-- `{ maxAttempts: 1 }`. -/
def optsPlain1 : RetryOptions := { maxAttempts := 1 }

/-- `{ maxAttempts: 2, backOffPolicy: Exponential, backOff: 1000,
exponentialOption: { maxInterval: 2000, multiplier: 2 } }`. -/
def optsExp2 : RetryOptions :=
  { maxAttempts := 2
    backOffPolicy := some BackOffPolicy.ExponentialBackOffPolicy
    backOff := some 1000
    exponentialOption := some ⟨2000, 2⟩ }

/-- `{ maxAttempts: 3, backOffPolicy: Exponential }` — everything else left to
the defaults. -/
def optsExpDefaults : RetryOptions :=
  { maxAttempts := 3, backOffPolicy := some BackOffPolicy.ExponentialBackOffPolicy }

/-- `{ maxAttempts: 3, value: [C] }` for a constructor tagged `7` that
`errPlain` is not an instance of. -/
def optsFilter : RetryOptions := { maxAttempts := 3, value := some [7] }

/-- `{ maxAttempts: 1, doRetry: e => e.message === 'rejected', value: [C₁] }`
for the constructor tagged `1`. -/
def optsPredAndValue : RetryOptions :=
  { maxAttempts := 1, doRetry := some (fun e => e.message == "rejected"), value := some [1] }

/-- `{ maxAttempts: 2, backOff: 100 }`. -/
def optsBack100 : RetryOptions := { maxAttempts := 2, backOff := some 100 }

/-- `{ maxAttempts: -1 }`. -/
def optsNeg : RetryOptions := { maxAttempts := -1 }

/-- A signal already aborted before the first attempt. -/
def trAbortedAtStart : SignalTrace :=
  { abortedAtCheck := fun _ => true
    abortedBeforeSleep := fun _ => false
    abortDuringSleep := fun _ => none }

/-- A signal whose abort event fires 30 ms into the first backoff sleep. -/
def trAbortInFirstSleep : SignalTrace :=
  { abortedAtCheck := fun _ => false
    abortedBeforeSleep := fun _ => false
    abortDuringSleep := fun j => if j = 0 then some 30 else none }

/-! ### General lemmas about the attempt loop -/

/-- Unfolding one uninterrupted retrying iteration: the attempt fails, the
failure is not final, the classifier accepts it, no abort is observed, so the
iteration sleeps (when `backOff` is truthy) and the loop advances. -/
theorem retryGo_step_retryable (opts : RetryOptions) (op : Nat → Except Err α)
    (tr : SignalTrace) (i fuel : Nat) (b : Option ℚ) (e : Err)
    (hA : tr.abortedAtCheck i = false) (hop : op i = Except.error e)
    (hne : ((i : Nat) : Int) ≠ opts.maxAttempts) (hcr : canRetry opts e = true)
    (hB : tr.abortedBeforeSleep i = false) (hD : tr.abortDuringSleep i = none) :
    retryGo opts op tr i (fuel + 1) b =
      ⟨(retryGo opts op tr (i + 1) fuel (nextBackOff opts b i)).outcome,
       (retryGo opts op tr (i + 1) fuel (nextBackOff opts b i)).invocations + 1,
       sleepEntry b ++ (retryGo opts op tr (i + 1) fuel (nextBackOff opts b i)).sleeps⟩ := by
  cases b with
  | none => simp [retryGo, hA, hop, hne, hcr, hB, hD, sleepEntry]
  | some q =>
    by_cases hq : q = 0
    · simp [retryGo, hA, hop, hne, hcr, hB, hD, sleepEntry, hq]
    · simp [retryGo, hA, hop, hne, hcr, hB, hD, sleepEntry, hq]

/-- Each loop iteration invokes the operation at most once, so a run with
`fuel` iterations left makes at most `fuel` invocations. -/
theorem retryGo_invocations_le (opts : RetryOptions) (op : Nat → Except Err α)
    (tr : SignalTrace) :
    ∀ (fuel i : Nat) (b : Option ℚ), (retryGo opts op tr i fuel b).invocations ≤ fuel := by
  intro fuel
  induction fuel with
  | zero => intro i b; simp [retryGo]
  | succ f ih =>
    intro i b
    by_cases hA : tr.abortedAtCheck i
    · simp [retryGo, hA]
    · cases hop : op i with
      | ok v => simp [retryGo, hA, hop]
      | error e =>
        by_cases hfin : ((i : Nat) : Int) = opts.maxAttempts
        · by_cases hr : opts.reraise.getD false <;>
            simp [retryGo, hA, hop, hfin, hr]
        · by_cases hcr : canRetry opts e = false
          · simp [retryGo, hA, hop, hfin, hcr]
          · by_cases hB : tr.abortedBeforeSleep i
            · simp [retryGo, hA, hop, hfin, hcr, hB]
            · cases b with
              | none =>
                simpa [retryGo, hA, hop, hfin, hcr, hB] using
                  Nat.succ_le_succ (ih (i + 1) (nextBackOff opts none i))
              | some q =>
                by_cases hq : q = 0
                · simpa [retryGo, hA, hop, hfin, hcr, hB, hq] using
                    Nat.succ_le_succ (ih (i + 1) (nextBackOff opts (some q) i))
                · cases hD : tr.abortDuringSleep i with
                  | some t => simp [retryGo, hA, hop, hfin, hcr, hB, hq, hD]
                  | none =>
                    simpa [retryGo, hA, hop, hfin, hcr, hB, hq, hD] using
                      Nat.succ_le_succ (ih (i + 1) (nextBackOff opts (some q) i))

/-- Running the loop from iteration `i` across `k` clean retrying iterations
is the run from iteration `i + k` prefixed by those `k` invocations and their
sleeps, with the `backOff` variable advanced `k` times. -/
theorem retryGo_skip (opts : RetryOptions) (op : Nat → Except Err α) (tr : SignalTrace) :
    ∀ (k i fuel : Nat) (b : Option ℚ),
      (∀ j, i ≤ j → j < i + k → cleanIter tr j ∧ failsRetryably opts op j) →
      (((i + k : Nat) : Int) ≤ opts.maxAttempts) →
      (((i : Nat) : Int) + fuel = opts.maxAttempts + 1) →
      retryGo opts op tr i fuel b =
        ⟨(retryGo opts op tr (i + k) (fuel - k) (backOffIter opts b i k)).outcome,
         (retryGo opts op tr (i + k) (fuel - k) (backOffIter opts b i k)).invocations + k,
         sleepsSeg opts b i k ++
           (retryGo opts op tr (i + k) (fuel - k) (backOffIter opts b i k)).sleeps⟩ := by
  intro k
  induction k with
  | zero =>
    intro i fuel b _ _ _
    simp [backOffIter, sleepsSeg]
  | succ n ih =>
    intro i fuel b H1 H2 H3
    obtain ⟨⟨hA, hB, hD⟩, e, hop, hcr⟩ := H1 i (le_refl i) (by omega)
    have hne : ((i : Nat) : Int) ≠ opts.maxAttempts := by
      push_cast at H2
      omega
    cases fuel with
    | zero =>
      exfalso
      push_cast at H2 H3
      omega
    | succ f =>
      rw [retryGo_step_retryable opts op tr i f b e hA hop hne hcr hB hD]
      have hrec := ih (i + 1) f (nextBackOff opts b i)
        (fun j hj1 hj2 => H1 j (by omega) (by omega))
        (by push_cast at H2 ⊢; omega)
        (by push_cast at H3 ⊢; omega)
      rw [hrec]
      have hidx : i + 1 + n = i + (n + 1) := by omega
      simp [hidx, backOffIter, sleepsSeg, Nat.succ_sub_succ, Nat.add_assoc,
        List.append_assoc]

/-- Option normalisation touches only `backOff` and `exponentialOption`: every
other field of the options record is preserved. -/
theorem createRetryHandler_preserves (opts : RetryOptions) :
    (createRetryHandler opts).maxAttempts = opts.maxAttempts ∧
    (createRetryHandler opts).reraise = opts.reraise ∧
    (createRetryHandler opts).doRetry = opts.doRetry ∧
    (createRetryHandler opts).value = opts.value ∧
    (createRetryHandler opts).backOffPolicy = opts.backOffPolicy := by
  unfold createRetryHandler setExponentialBackOffPolicyDefault
  split
  · split <;> exact ⟨rfl, rfl, rfl, rfl, rfl⟩
  · exact ⟨rfl, rfl, rfl, rfl, rfl⟩

/-- The classifier reads only `doRetry` and `value`, both untouched by the
option normalisation. -/
theorem canRetry_createRetryHandler (opts : RetryOptions) (e : Err) :
    canRetry (createRetryHandler opts) e = canRetry opts e := by
  obtain ⟨-, -, hdo, hval, -⟩ := createRetryHandler_preserves opts
  simp [canRetry, doRetryForbids, valueFilterForbids, hdo, hval]

/-- A run of `k` uninterrupted iterations sleeps at most `k` times. -/
theorem sleepsSeg_length_le (opts : RetryOptions) :
    ∀ (k : Nat) (b : Option ℚ) (i : Nat), (sleepsSeg opts b i k).length ≤ k := by
  intro k
  induction k with
  | zero => intro b i; simp [sleepsSeg]
  | succ n ih =>
    intro b i
    have := ih (nextBackOff opts b i) (i + 1)
    cases b with
    | none => simpa [sleepsSeg, sleepEntry] using Nat.le_succ_of_le this
    | some q =>
      by_cases hq : q = 0
      · simpa [sleepsSeg, sleepEntry, hq] using Nat.le_succ_of_le this
      · simpa [sleepsSeg, sleepEntry, hq] using Nat.succ_le_succ this

/-! ### Claim theorems -/

/-- C1: for every policy (`maxAttempts ≥ 0`, per the data model) and every
operation, one `execute` call invokes the wrapped operation at most
`maxAttempts + 1` times, whatever the attempt outcomes and whatever the
cancellation signal does. -/
theorem invocation_budget (opts : RetryOptions) (op : Nat → Except Err α)
    (tr : SignalTrace) (h : 0 ≤ opts.maxAttempts) :
    ((execute opts op tr).invocations : Int) ≤ opts.maxAttempts + 1 := by
  obtain ⟨hM, -, -, -, -⟩ := createRetryHandler_preserves opts
  have hle := retryGo_invocations_le (createRetryHandler opts) op tr
    ((createRetryHandler opts).maxAttempts + 1).toNat 0 (createRetryHandler opts).backOff
  unfold execute retryAsync
  rw [hM] at hle ⊢
  omega

/-- C1 witness: the budget bound instantiated at `{ maxAttempts: 1 }` with an
always-failing operation and a never-aborted signal. -/
theorem invocation_budget_witness :
    ((execute optsPlain1 opAlwaysFail neverAborted).invocations : Int) ≤
      optsPlain1.maxAttempts + 1 :=
  invocation_budget optsPlain1 opAlwaysFail neverAborted (by decide)

/-- C2: in every execution that reaches the final attempt
(`i = maxAttempts`) and fails it with `e`, the exhaustion check fires before
classification: with `reraise` the call fails with `e` unchanged, otherwise
with `MaxAttemptsError` carrying `originalError = e` and
`retryCount = maxAttempts` — with no `canRetry` assumption on `e` at all. -/
theorem final_attempt_exhaustion (opts : RetryOptions) (op : Nat → Except Err α)
    (tr : SignalTrace) (e : Err)
    (hM : 0 ≤ opts.maxAttempts)
    (hclean : ∀ j, j < opts.maxAttempts.toNat → cleanIter tr j)
    (hfail : ∀ j, j < opts.maxAttempts.toNat → failsRetryably opts op j)
    (hcheckN : tr.abortedAtCheck opts.maxAttempts.toNat = false)
    (hlast : op opts.maxAttempts.toNat = Except.error e) :
    (execute opts op tr).outcome =
      if opts.reraise.getD false then RetryOutcome.original e
      else RetryOutcome.maxAttemptsE (mkMaxAttemptsError e opts.maxAttempts) := by
  obtain ⟨hMA, hRer, -, -, -⟩ := createRetryHandler_preserves opts
  have hskip := retryGo_skip (createRetryHandler opts) op tr opts.maxAttempts.toNat 0
    ((createRetryHandler opts).maxAttempts + 1).toNat (createRetryHandler opts).backOff
    (fun j hj1 hj2 => by
      refine ⟨hclean j (by omega), ?_⟩
      obtain ⟨e', hop', hcr'⟩ := hfail j (by omega)
      exact ⟨e', hop', by rw [canRetry_createRetryHandler]; exact hcr'⟩)
    (by rw [hMA]; omega)
    (by rw [hMA]; push_cast; omega)
  unfold execute retryAsync
  rw [hskip]
  have hfuel : ((createRetryHandler opts).maxAttempts + 1).toNat - opts.maxAttempts.toNat
      = 1 := by rw [hMA]; omega
  have hzero : 0 + opts.maxAttempts.toNat = opts.maxAttempts.toNat := by omega
  rw [hfuel, hzero]
  have hfin : ((opts.maxAttempts.toNat : Nat) : Int) = (createRetryHandler opts).maxAttempts := by
    rw [hMA]; omega
  simp [retryGo, hcheckN, hlast, hfin, hRer, hMA]
  split <;> rfl

/-- C2 witness: `{ maxAttempts: 1 }`, every attempt rejecting with `errPlain`,
never aborted — the call fails with the wrapping `MaxAttemptsError`. -/
theorem final_attempt_exhaustion_witness :
    (execute optsPlain1 opAlwaysFail neverAborted).outcome =
      if optsPlain1.reraise.getD false then RetryOutcome.original errPlain
      else RetryOutcome.maxAttemptsE (mkMaxAttemptsError errPlain optsPlain1.maxAttempts) :=
  final_attempt_exhaustion optsPlain1 opAlwaysFail neverAborted errPlain (by decide)
    (fun j _ => ⟨rfl, rfl, rfl⟩) (fun j _ => ⟨errPlain, rfl, by decide⟩) rfl rfl

/-- C5: if an attempt with index `i < maxAttempts` fails with an error the
classifier rejects, `execute` fails immediately with that error itself —
unwrapped, independent of `reraise` — after exactly `i + 1` invocations and
with no sleep for this failure (every recorded sleep belongs to an earlier
iteration, so there are at most `i`). -/
theorem nonretryable_immediate_failure (opts : RetryOptions) (op : Nat → Except Err α)
    (tr : SignalTrace) (i : Nat) (e : Err)
    (hM : 0 ≤ opts.maxAttempts)
    (hi : ((i : Nat) : Int) < opts.maxAttempts)
    (hclean : ∀ j, j < i → cleanIter tr j)
    (hfail : ∀ j, j < i → failsRetryably opts op j)
    (hcheck : tr.abortedAtCheck i = false)
    (hop : op i = Except.error e)
    (hcr : canRetry opts e = false) :
    (execute opts op tr).outcome = RetryOutcome.original e ∧
    (execute opts op tr).invocations = i + 1 ∧
    (execute opts op tr).sleeps.length ≤ i := by
  obtain ⟨hMA, -, -, -, -⟩ := createRetryHandler_preserves opts
  have hskip := retryGo_skip (createRetryHandler opts) op tr i 0
    ((createRetryHandler opts).maxAttempts + 1).toNat (createRetryHandler opts).backOff
    (fun j hj1 hj2 => by
      refine ⟨hclean j (by omega), ?_⟩
      obtain ⟨e', hop', hcr'⟩ := hfail j (by omega)
      exact ⟨e', hop', by rw [canRetry_createRetryHandler]; exact hcr'⟩)
    (by rw [hMA]; omega)
    (by rw [hMA]; push_cast; omega)
  unfold execute retryAsync
  rw [hskip]
  obtain ⟨f, hf⟩ : ∃ f, ((createRetryHandler opts).maxAttempts + 1).toNat - i = f + 1 :=
    ⟨((createRetryHandler opts).maxAttempts + 1).toNat - i - 1, by rw [hMA]; omega⟩
  have hzero : 0 + i = i := by omega
  rw [hf, hzero]
  have hne : ((i : Nat) : Int) ≠ (createRetryHandler opts).maxAttempts := by
    rw [hMA]; omega
  have hcr' : canRetry (createRetryHandler opts) e = false := by
    rw [canRetry_createRetryHandler]; exact hcr
  refine ⟨?_, ?_, ?_⟩
  · simp [retryGo, hcheck, hop, hne, hcr']
  · simp [retryGo, hcheck, hop, hne, hcr', Nat.add_comm]
  · simpa [retryGo, hcheck, hop, hne, hcr'] using
      sleepsSeg_length_le (createRetryHandler opts) i (createRetryHandler opts).backOff 0

/-- C5 witness: `{ maxAttempts: 3, value: [C₇] }` and a first attempt throwing
`errPlain`, which matches no listed kind: one invocation, unwrapped failure,
no sleep. -/
theorem nonretryable_immediate_failure_witness :
    (execute optsFilter opAlwaysFail neverAborted).outcome = RetryOutcome.original errPlain ∧
    (execute optsFilter opAlwaysFail neverAborted).invocations = 0 + 1 ∧
    (execute optsFilter opAlwaysFail neverAborted).sleeps.length ≤ 0 :=
  nonretryable_immediate_failure optsFilter opAlwaysFail neverAborted 0 errPlain
    (by decide) (by decide) (fun j hj => absurd hj (by omega))
    (fun j hj => absurd hj (by omega)) rfl rfl (by decide)

/-- C6: cancellation is observed at both points and always yields the
`AbortError`: a signal already aborted before the first attempt means zero
invocations and an `AbortError` failure; an abort event firing `t` ms into a
backoff sleep of nominal duration `q` (with `t < q`) interrupts that sleep —
the recorded actual wait is `t`, not `q` — and the call fails with
`AbortError`. -/
theorem cancellation_observed (opts : RetryOptions) (op : Nat → Except Err α)
    (tr : SignalTrace) :
    (0 ≤ opts.maxAttempts → tr.abortedAtCheck 0 = true →
      execute opts op tr =
        ⟨RetryOutcome.abortE (mkAbortError "Retry operation aborted"), 0, []⟩) ∧
    (∀ (i : Nat) (q t : ℚ),
      0 ≤ opts.maxAttempts →
      ((i : Nat) : Int) < opts.maxAttempts →
      (∀ j, j < i → cleanIter tr j) →
      (∀ j, j ≤ i → failsRetryably opts op j) →
      tr.abortedAtCheck i = false →
      tr.abortedBeforeSleep i = false →
      backOffAt (createRetryHandler opts) i = some q →
      ¬ q = 0 →
      tr.abortDuringSleep i = some t →
      t < q →
      (execute opts op tr).outcome =
          RetryOutcome.abortE (mkAbortError "Retry operation aborted") ∧
        (execute opts op tr).sleeps.getLast? = some (q, t)) := by
  constructor
  · intro hM hab
    unfold execute retryAsync
    obtain ⟨hMA, -, -, -, -⟩ := createRetryHandler_preserves opts
    obtain ⟨f, hf⟩ : ∃ f, ((createRetryHandler opts).maxAttempts + 1).toNat = f + 1 :=
      ⟨((createRetryHandler opts).maxAttempts + 1).toNat - 1, by rw [hMA]; omega⟩
    rw [hf]
    simp [retryGo, hab]
  · intro i q t hM hi hclean hfail hcheck hbs hb hq ht htq
    obtain ⟨hMA, -, -, -, -⟩ := createRetryHandler_preserves opts
    obtain ⟨e, hop, hcr⟩ := hfail i (le_refl i)
    have hcr' : canRetry (createRetryHandler opts) e = true := by
      rw [canRetry_createRetryHandler]; exact hcr
    have hskip := retryGo_skip (createRetryHandler opts) op tr i 0
      ((createRetryHandler opts).maxAttempts + 1).toNat (createRetryHandler opts).backOff
      (fun j hj1 hj2 => by
        refine ⟨hclean j (by omega), ?_⟩
        obtain ⟨e', hop', hcr2⟩ := hfail j (by omega)
        exact ⟨e', hop', by rw [canRetry_createRetryHandler]; exact hcr2⟩)
      (by rw [hMA]; omega)
      (by rw [hMA]; push_cast; omega)
    unfold execute retryAsync
    rw [hskip]
    obtain ⟨f, hf⟩ : ∃ f, ((createRetryHandler opts).maxAttempts + 1).toNat - i = f + 1 :=
      ⟨((createRetryHandler opts).maxAttempts + 1).toNat - i - 1, by rw [hMA]; omega⟩
    have hzero : 0 + i = i := by omega
    rw [hf, hzero]
    have hne : ((i : Nat) : Int) ≠ (createRetryHandler opts).maxAttempts := by
      rw [hMA]; omega
    have hbA : backOffIter (createRetryHandler opts) (createRetryHandler opts).backOff 0 i
        = some q := hb
    rw [hbA]
    constructor
    · simp [retryGo, hcheck, hop, hne, hcr', hbs, hq, ht]
    · simp [retryGo, hcheck, hop, hne, hcr', hbs, hq, ht]

/-- C6 witness: a pre-aborted signal yields zero invocations; a signal firing
30 ms into the first 100 ms backoff sleep of `{ maxAttempts: 2, backOff: 100 }`
yields `AbortError` with the interrupted sleep recorded as `(100, 30)`. -/
theorem cancellation_observed_witness :
    execute optsPlain1 opAlwaysFail trAbortedAtStart =
      ⟨RetryOutcome.abortE (mkAbortError "Retry operation aborted"), 0, []⟩ ∧
    ((execute optsBack100 opAlwaysFail trAbortInFirstSleep).outcome =
        RetryOutcome.abortE (mkAbortError "Retry operation aborted") ∧
      (execute optsBack100 opAlwaysFail trAbortInFirstSleep).sleeps.getLast? =
        some (100, 30)) :=
  ⟨(cancellation_observed optsPlain1 opAlwaysFail trAbortedAtStart).1 (by decide) rfl,
   (cancellation_observed optsBack100 opAlwaysFail trAbortInFirstSleep).2 0 100 30
     (by decide) (by decide) (fun j hj => absurd hj (by omega))
     (fun j _ => ⟨errPlain, rfl, by decide⟩) rfl rfl rfl (by decide) rfl (by decide)⟩

/-- Under the positivity assumptions every delay of the exponential chain is
positive. -/
theorem expDelay_pos (b M m : ℚ) (hb : 0 < b) (hM : 0 < M) (hm : 0 < m) :
    ∀ k, 0 < expDelay b M m k := by
  intro k
  induction k with
  | zero => simpa [expDelay] using hb
  | succ n ih => exact lt_min (mul_pos ih (pow_pos hm n)) hM

/-- The exponential backoff update in closed form on a `some` value. -/
theorem nextBackOff_exponential (opts : RetryOptions) (M m c : ℚ) (i : Nat)
    (hpol : opts.backOffPolicy = some BackOffPolicy.ExponentialBackOffPolicy)
    (hexp : opts.exponentialOption = some ⟨M, m⟩) :
    nextBackOff opts (some c) i = some (min (c * m ^ i) M) := by
  simp [nextBackOff, hpol, hexp]

/-- Under the exponential policy, `k` uninterrupted retrying iterations
starting at iteration `i` with the chain value `expDelay b M m i` sleep
exactly the next `k` values of the chain. -/
theorem sleepsSeg_exponential (opts : RetryOptions) (b M m : ℚ)
    (hpol : opts.backOffPolicy = some BackOffPolicy.ExponentialBackOffPolicy)
    (hexp : opts.exponentialOption = some ⟨M, m⟩)
    (hb0 : 0 < b) (hM0 : 0 < M) (hm0 : 0 < m) :
    ∀ (k i : Nat),
      sleepsSeg opts (some (expDelay b M m i)) i k =
        (List.range k).map (fun j => (expDelay b M m (i + j), expDelay b M m (i + j))) := by
  intro k
  induction k with
  | zero => intro i; simp [sleepsSeg]
  | succ n ih =>
    intro i
    have hpos := expDelay_pos b M m hb0 hM0 hm0 i
    have hnz : ¬ expDelay b M m i = 0 := ne_of_gt hpos
    rw [show sleepsSeg opts (some (expDelay b M m i)) i (n + 1) =
        sleepEntry (some (expDelay b M m i)) ++
          sleepsSeg opts (nextBackOff opts (some (expDelay b M m i)) i) (i + 1) n from rfl]
    rw [nextBackOff_exponential opts M m (expDelay b M m i) i hpol hexp]
    rw [show min (expDelay b M m i * m ^ i) M = expDelay b M m (i + 1) from rfl]
    rw [ih (i + 1)]
    have hfun : (fun j => (expDelay b M m (i + 1 + j), expDelay b M m (i + 1 + j)))
        = fun j => (expDelay b M m (i + (j + 1)), expDelay b M m (i + (j + 1))) := by
      funext j
      have hj : i + 1 + j = i + (j + 1) := by omega
      rw [hj]
    rw [hfun]
    simp [sleepEntry, hnz, List.range_succ_eq_map, List.map_map, Function.comp,
      Nat.succ_eq_add_one]

/-- The engine-level form of the exponential delay sequence, over options that
already carry their exponential configuration explicitly. -/
theorem retryAsync_exponential_sleeps (opts : RetryOptions) (op : Nat → Except Err α)
    (tr : SignalTrace) (b M m : ℚ)
    (hpol : opts.backOffPolicy = some BackOffPolicy.ExponentialBackOffPolicy)
    (hb : opts.backOff = some b) (hb0 : 0 < b)
    (hexp : opts.exponentialOption = some ⟨M, m⟩) (hM0 : 0 < M) (hm0 : 0 < m)
    (hA : 0 ≤ opts.maxAttempts)
    (hclean : ∀ j, cleanIter tr j)
    (hfail : ∀ j, failsRetryably opts op j) :
    (retryAsync opts op tr).sleeps.map Prod.fst =
      (List.range opts.maxAttempts.toNat).map (expDelay b M m) := by
  unfold retryAsync
  rw [hb]
  have hskip := retryGo_skip opts op tr opts.maxAttempts.toNat 0
    (opts.maxAttempts + 1).toNat (some b)
    (fun j hj1 hj2 => ⟨hclean j, hfail j⟩)
    (by omega) (by push_cast; omega)
  rw [hskip]
  have hzero : 0 + opts.maxAttempts.toNat = opts.maxAttempts.toNat := by omega
  have hfuel : (opts.maxAttempts + 1).toNat - opts.maxAttempts.toNat = 1 := by omega
  rw [hzero, hfuel]
  obtain ⟨e, hop, hcr⟩ := hfail opts.maxAttempts.toNat
  obtain ⟨hA1, hA2, hA3⟩ := hclean opts.maxAttempts.toNat
  have hfin : ((opts.maxAttempts.toNat : Nat) : Int) = opts.maxAttempts := by omega
  have hrest : (retryGo opts op tr opts.maxAttempts.toNat 1
      (backOffIter opts (some b) 0 opts.maxAttempts.toNat)).sleeps = [] := by
    by_cases hr : opts.reraise.getD false <;> simp [retryGo, hA1, hop, hfin, hr]
  rw [show sleepsSeg opts (some b) 0 opts.maxAttempts.toNat
      = sleepsSeg opts (some (expDelay b M m 0)) 0 opts.maxAttempts.toNat from rfl]
  rw [sleepsSeg_exponential opts b M m hpol hexp hb0 hM0 hm0 opts.maxAttempts.toNat 0]
  simp [hrest, List.map_map, Function.comp]

/-- C3 (amended): under the exponential policy with base `b > 0`, cap `M > 0`
and multiplier `m > 0`, the nominal delay slept before retry `i` is
`expDelay b M m i`: the base itself before the first retry, then
`min(previous · m ^ i, M)` where the exponent is the index of the iteration
performing the update — not the claimed closed form `min(b · m ^ i, M)`. -/
theorem exponential_delay_sequence (opts : RetryOptions) (op : Nat → Except Err α)
    (tr : SignalTrace) (b M m : ℚ)
    (hpol : opts.backOffPolicy = some BackOffPolicy.ExponentialBackOffPolicy)
    (hb : opts.backOff = some b) (hb0 : 0 < b)
    (hexp : opts.exponentialOption = some ⟨M, m⟩) (hM0 : 0 < M) (hm0 : 0 < m)
    (hA : 0 ≤ opts.maxAttempts)
    (hclean : ∀ j, cleanIter tr j)
    (hfail : ∀ j, failsRetryably opts op j) :
    (execute opts op tr).sleeps.map Prod.fst =
      (List.range opts.maxAttempts.toNat).map (expDelay b M m) := by
  have hbeq : (b == (0 : ℚ)) = false := beq_eq_false_iff_ne.mpr (ne_of_gt hb0)
  have hnorm : createRetryHandler opts = { opts with exponentialOption := some ⟨M, m⟩ } := by
    simp [createRetryHandler, hpol, setExponentialBackOffPolicyDefault, jsFalsy, hb,
      hbeq, hexp]
  obtain ⟨hMA, -, -, -, hpol2⟩ := createRetryHandler_preserves opts
  unfold execute
  rw [retryAsync_exponential_sleeps (createRetryHandler opts) op tr b M m
    (by rw [hpol2]; exact hpol)
    (by rw [hnorm]; exact hb) hb0
    (by rw [hnorm]) hM0 hm0
    (by rw [hMA]; exact hA) hclean
    (fun j => by
      obtain ⟨e, hop, hcr⟩ := hfail j
      exact ⟨e, hop, by rw [canRetry_createRetryHandler]; exact hcr⟩)]
  rw [hMA]

/-- C3 counterexample: with base 1000, multiplier 2, cap 2000 and three
always-failing attempts, the engine sleeps 1000 ms before the second retry
(retry index 1), whereas the claimed formula `min(base · multiplier ^ 1,
maxInterval)` gives 2000 ms. -/
theorem exponential_delay_counterexample :
    (execute optsExp2 opAlwaysFail neverAborted).sleeps.map Prod.fst = [1000, 1000] ∧
    ¬ ((1000 : ℚ) = min ((1000 : ℚ) * 2 ^ 1) 2000) := by
  constructor
  · norm_num [execute, retryAsync, createRetryHandler, setExponentialBackOffPolicyDefault,
      jsFalsy, retryGo, canRetry, doRetryForbids, valueFilterForbids, nextBackOff,
      neverAborted, optsExp2, opAlwaysFail, errPlain]
  · norm_num

/-- C3 witness: the amended delay sequence instantiated at base 1000,
multiplier 2, cap 2000, `maxAttempts = 2`. -/
theorem exponential_delay_sequence_witness :
    (execute optsExp2 opAlwaysFail neverAborted).sleeps.map Prod.fst =
      (List.range optsExp2.maxAttempts.toNat).map (expDelay 1000 2000 2) :=
  exponential_delay_sequence optsExp2 opAlwaysFail neverAborted 1000 2000 2 rfl rfl
    (by norm_num) rfl (by norm_num) (by norm_num) (by decide)
    (fun j => ⟨rfl, rfl, rfl⟩) (fun j => ⟨errPlain, rfl, by decide⟩)

/-- C4: `canRetry` decides in tie-break order — a configured predicate
returning false forbids retrying regardless of the type filter; otherwise a
configured non-empty kind set with no member matching the error forbids it;
otherwise (in particular for an absent or empty kind set) retrying is
permitted.  Stated as: the classifier permits exactly when the predicate (if
any) accepts and the non-empty kind set (if any) has a match. -/
theorem canRetry_classification (opts : RetryOptions) (e : Err) :
    canRetry opts e = true ↔
      ((∀ p, opts.doRetry = some p → p e = true) ∧
       (∀ l, opts.value = some l → l ≠ [] → ∃ k, k ∈ l ∧ instanceOfKind e k = true)) := by
  cases hdo : opts.doRetry with
  | none =>
    cases hval : opts.value with
    | none => simp [canRetry, doRetryForbids, valueFilterForbids, hdo, hval]
    | some l =>
      by_cases hl : l = []
      · simp [canRetry, doRetryForbids, valueFilterForbids, hdo, hval, hl]
      · simp [canRetry, doRetryForbids, valueFilterForbids, hdo, hval, hl,
          List.any_eq_true, List.length_eq_zero]
  | some p =>
    by_cases hp : p e
    · cases hval : opts.value with
      | none => simp [canRetry, doRetryForbids, valueFilterForbids, hdo, hval, hp]
      | some l =>
        by_cases hl : l = []
        · simp [canRetry, doRetryForbids, valueFilterForbids, hdo, hval, hl, hp]
        · simp [canRetry, doRetryForbids, valueFilterForbids, hdo, hval, hl, hp,
            List.any_eq_true, List.length_eq_zero]
    · simp [canRetry, doRetryForbids, valueFilterForbids, hdo,
        Bool.eq_false_iff.mpr hp, hp]

/-- C4 witness: a predicate accepting `errPlain` together with the kind set
`[1]` that `errPlain` matches — the classifier permits the retry. -/
theorem canRetry_classification_witness :
    canRetry optsPredAndValue errPlain = true :=
  (canRetry_classification optsPredAndValue errPlain).mpr
    ⟨fun p hp => by injection hp with h; rw [← h]; decide,
     fun l hl _ => by injection hl with h; exact ⟨1, by rw [← h]; decide, by decide⟩⟩

/-- C7: with jitter enabled and type Full — also the default type when enabled
and unspecified — the actual wait for a draw `rand ∈ [0, 1)` on a nominal
delay `d > 0` is `rand · d`, which is nonnegative and strictly less than `d`;
with jitter disabled (explicitly or by default) the nominal delay is used
verbatim. -/
theorem full_jitter_bounds (rand d : ℚ) (h0 : 0 ≤ rand) (h1 : rand < 1) (hd : 0 < d) :
    (∀ base M prev,
      applyJitter (some true) (some JitterType.full) base M prev rand d = rand * d ∧
      applyJitter (some true) Option.none base M prev rand d = rand * d) ∧
    0 ≤ rand * d ∧ rand * d < d ∧
    (∀ jt base M prev,
      applyJitter (some false) jt base M prev rand d = d ∧
      applyJitter Option.none jt base M prev rand d = d) := by
  refine ⟨fun base M prev => ⟨rfl, rfl⟩, mul_nonneg h0 hd.le, ?_,
    fun jt base M prev => ⟨rfl, rfl⟩⟩
  calc rand * d < 1 * d := mul_lt_mul_of_pos_right h1 hd
    _ = d := one_mul d

/-- C7 witness: the bounds at `rand = 1/2`, `d = 1000`. -/
theorem full_jitter_bounds_witness :
    applyJitter (some true) (some JitterType.full) 500 2000 500 (1/2) 1000
        = (1/2 : ℚ) * 1000 ∧
    (0 : ℚ) ≤ (1/2 : ℚ) * 1000 ∧ (1/2 : ℚ) * 1000 < 1000 ∧
    applyJitter (some false) (some JitterType.full) 500 2000 500 (1/2) 1000 = 1000 := by
  obtain ⟨hfull, hnn, hlt, hverb⟩ :=
    full_jitter_bounds (1/2) 1000 (by norm_num) (by norm_num) (by norm_num)
  exact ⟨(hfull 500 2000 500).1, hnn, hlt, (hverb (some JitterType.full) 500 2000 500).1⟩

/-- C8 counterexample: with the Exponential policy and no `backOff` supplied,
building the handler changes the options' `backOff` — afterwards it reads
`some 1000`, not the `undefined` the caller supplied (the source assigns
`opts.backOff = 1000` on the caller's own object). -/
theorem options_mutation_counterexample :
    (createRetryHandler optsExpDefaults).backOff ≠ optsExpDefaults.backOff := by
  decide

/-- C8 (amended): building the handler never fails and leaves `maxAttempts`,
`reraise`, `doRetry`, `value` and `backOffPolicy` as supplied; under the
Exponential policy it rewrites the options in place — `backOff` becomes 1000
whenever it was falsy (`undefined` or 0) and `exponentialOption` becomes the
caller's value merged over the defaults `{maxInterval: 2000, multiplier: 2}` —
while under any other policy the options are untouched. -/
theorem options_mutation_amended (opts : RetryOptions) :
    (createRetryHandler opts).maxAttempts = opts.maxAttempts ∧
    (createRetryHandler opts).reraise = opts.reraise ∧
    (createRetryHandler opts).doRetry = opts.doRetry ∧
    (createRetryHandler opts).value = opts.value ∧
    (createRetryHandler opts).backOffPolicy = opts.backOffPolicy ∧
    (opts.backOffPolicy = some BackOffPolicy.ExponentialBackOffPolicy →
      (createRetryHandler opts).backOff =
          (if jsFalsy opts.backOff then some 1000 else opts.backOff) ∧
        (createRetryHandler opts).exponentialOption =
          some (opts.exponentialOption.getD ⟨2000, 2⟩)) ∧
    (¬ opts.backOffPolicy = some BackOffPolicy.ExponentialBackOffPolicy →
      createRetryHandler opts = opts) := by
  obtain ⟨h1, h2, h3, h4, h5⟩ := createRetryHandler_preserves opts
  refine ⟨h1, h2, h3, h4, h5, fun hpol => ?_, fun hpol => ?_⟩
  · constructor
    · simp only [createRetryHandler, setExponentialBackOffPolicyDefault, hpol, if_pos]
      split <;> simp_all
    · simp only [createRetryHandler, setExponentialBackOffPolicyDefault, hpol, if_pos]
      split <;> simp_all
  · simp [createRetryHandler, hpol]

/-- C8 witness: the defaults derivation at an Exponential policy with nothing
supplied, and the identity behaviour at a Fixed-by-default policy. -/
theorem options_mutation_amended_witness :
    (createRetryHandler optsExpDefaults).backOff = some 1000 ∧
    (createRetryHandler optsExpDefaults).exponentialOption = some ⟨2000, 2⟩ ∧
    createRetryHandler optsPlain1 = optsPlain1 := by
  obtain ⟨-, -, -, -, -, hexp, -⟩ := options_mutation_amended optsExpDefaults
  obtain ⟨-, -, -, -, -, -, hfix⟩ := options_mutation_amended optsPlain1
  obtain ⟨hb, he⟩ := hexp rfl
  exact ⟨by rw [hb]; rfl, by rw [he]; rfl, hfix (by simp [optsPlain1])⟩

/-- C9 counterexample: with `maxAttempts = -1` nothing fails — handler
construction succeeds and the call returns the loop's fall-through
(`undefined`) with zero invocations, so no configuration error is raised for
negative `maxAttempts`. -/
theorem negative_maxAttempts_counterexample :
    execute optsNeg opAlwaysFail neverAborted = ⟨RetryOutcome.fallthrough, 0, []⟩ := by
  decide

/-- C9 (amended): construction performs no validation at all and never fails:
a negative `maxAttempts` silently yields zero invocations and an `undefined`
result, while `maxAttempts = 0` yields exactly one invocation and no retries
(no sleeps), whatever the attempt's outcome. -/
theorem no_validation_amended (opts : RetryOptions) (op : Nat → Except Err α)
    (tr : SignalTrace) :
    (opts.maxAttempts < 0 → execute opts op tr = ⟨RetryOutcome.fallthrough, 0, []⟩) ∧
    (opts.maxAttempts = 0 → tr.abortedAtCheck 0 = false →
      (execute opts op tr).invocations = 1 ∧ (execute opts op tr).sleeps = []) := by
  obtain ⟨hMA, -, -, -, -⟩ := createRetryHandler_preserves opts
  constructor
  · intro hneg
    unfold execute retryAsync
    have h0 : ((createRetryHandler opts).maxAttempts + 1).toNat = 0 := by rw [hMA]; omega
    rw [h0]
    rfl
  · intro h0 hck
    unfold execute retryAsync
    have h1 : ((createRetryHandler opts).maxAttempts + 1).toNat = 1 := by rw [hMA]; omega
    rw [h1]
    cases hop : op 0 with
    | ok v => constructor <;> simp [retryGo, hck, hop]
    | error e =>
      by_cases hr : (createRetryHandler opts).reraise.getD false <;>
        constructor <;> simp [retryGo, hck, hop, hMA, h0, hr]

/-- C9 witness: the amended statement at `maxAttempts = -1` (zero invocations,
fall-through) and `maxAttempts = 0` (exactly one invocation, no sleeps). -/
theorem no_validation_amended_witness :
    (execute optsNeg (fun j => opAlwaysFail (j + 1)) neverAborted =
      ⟨RetryOutcome.fallthrough, 0, []⟩) ∧
    ((execute { maxAttempts := 0 } opAlwaysFail neverAborted).invocations = 1 ∧
      (execute { maxAttempts := 0 } opAlwaysFail neverAborted).sleeps = []) :=
  ⟨(no_validation_amended optsNeg (fun j => opAlwaysFail (j + 1)) neverAborted).1
      (by decide),
   (no_validation_amended { maxAttempts := 0 } opAlwaysFail neverAborted).2 rfl rfl⟩

/-- Every `AbortError` the loop produces was constructed with the fixed
message `Retry operation aborted`. -/
theorem retryGo_abortE_shape (opts : RetryOptions) (op : Nat → Except Err α)
    (tr : SignalTrace) :
    ∀ (fuel i : Nat) (b : Option ℚ) (a : AbortError),
      (retryGo opts op tr i fuel b).outcome = RetryOutcome.abortE a →
      a = mkAbortError "Retry operation aborted" := by
  intro fuel
  induction fuel with
  | zero => intro i b a h; simp [retryGo] at h
  | succ f ih =>
    intro i b a h
    by_cases hA : tr.abortedAtCheck i
    · simp [retryGo, hA] at h
      exact h.symm
    · cases hop : op i with
      | ok v => simp [retryGo, hA, hop] at h
      | error e =>
        by_cases hfin : ((i : Nat) : Int) = opts.maxAttempts
        · by_cases hr : opts.reraise.getD false <;>
            simp [retryGo, hA, hop, hfin, hr] at h
        · by_cases hcr : canRetry opts e = false
          · simp [retryGo, hA, hop, hfin, hcr] at h
          · by_cases hB : tr.abortedBeforeSleep i
            · simp [retryGo, hA, hop, hfin, hcr, hB] at h
              exact h.symm
            · cases b with
              | none =>
                simp [retryGo, hA, hop, hfin, hcr, hB] at h
                exact ih (i + 1) (nextBackOff opts none i) a h
              | some q =>
                by_cases hq : q = 0
                · subst hq
                  simp [retryGo, hA, hop, hfin, hcr, hB] at h
                  exact ih (i + 1) (nextBackOff opts (some 0) i) a h
                · cases hD : tr.abortDuringSleep i with
                  | some t =>
                    simp [retryGo, hA, hop, hfin, hcr, hB, hq, hD] at h
                    exact h.symm
                  | none =>
                    simp [retryGo, hA, hop, hfin, hcr, hB, hq, hD] at h
                    exact ih (i + 1) (nextBackOff opts (some q) i) a h

/-- Every `MaxAttemptsError` the loop produces was constructed from the final
attempt: its `retryCount` is `maxAttempts`, its `originalError` is the error
that attempt rejected with, and it has the constructor's shape. -/
theorem retryGo_maxAttemptsE_shape (opts : RetryOptions) (op : Nat → Except Err α)
    (tr : SignalTrace) :
    ∀ (fuel i : Nat) (b : Option ℚ) (err : MaxAttemptsError),
      (retryGo opts op tr i fuel b).outcome = RetryOutcome.maxAttemptsE err →
      err.retryCount = opts.maxAttempts ∧
      op err.retryCount.toNat = Except.error err.originalError ∧
      err = mkMaxAttemptsError err.originalError err.retryCount := by
  intro fuel
  induction fuel with
  | zero => intro i b err h; simp [retryGo] at h
  | succ f ih =>
    intro i b err h
    by_cases hA : tr.abortedAtCheck i
    · simp [retryGo, hA] at h
    · cases hop : op i with
      | ok v => simp [retryGo, hA, hop] at h
      | error e =>
        by_cases hfin : ((i : Nat) : Int) = opts.maxAttempts
        · by_cases hr : opts.reraise.getD false
          · simp [retryGo, hA, hop, hfin, hr] at h
          · simp [retryGo, hA, hop, hfin, hr] at h
            have htn : opts.maxAttempts.toNat = i := by omega
            subst h
            exact ⟨by simp [mkMaxAttemptsError], by simpa [mkMaxAttemptsError, htn] using hop,
              by simp [mkMaxAttemptsError]⟩
        · by_cases hcr : canRetry opts e = false
          · simp [retryGo, hA, hop, hfin, hcr] at h
          · by_cases hB : tr.abortedBeforeSleep i
            · simp [retryGo, hA, hop, hfin, hcr, hB] at h
            · cases b with
              | none =>
                simp [retryGo, hA, hop, hfin, hcr, hB] at h
                exact ih (i + 1) (nextBackOff opts none i) err h
              | some q =>
                by_cases hq : q = 0
                · subst hq
                  simp [retryGo, hA, hop, hfin, hcr, hB] at h
                  exact ih (i + 1) (nextBackOff opts (some 0) i) err h
                · cases hD : tr.abortDuringSleep i with
                  | some t => simp [retryGo, hA, hop, hfin, hcr, hB, hq, hD] at h
                  | none =>
                    simp [retryGo, hA, hop, hfin, hcr, hB, hq, hD] at h
                    exact ih (i + 1) (nextBackOff opts (some q) i) err h

/-- C10: every `AbortError` the engine raises has message
`Retry operation aborted`, name `AbortError` and code `ABORT_ERR`; every
`MaxAttemptsError` it raises has code `429`, stores the final attempt's error
in `originalError` and the final attempt index (`maxAttempts`) in
`retryCount`, and carries the message
`Max retry reached: {retryCount}, original error: {originalError.message}`. -/
theorem error_shapes (opts : RetryOptions) (op : Nat → Except Err α) (tr : SignalTrace) :
    (∀ a, (execute opts op tr).outcome = RetryOutcome.abortE a →
      a.message = "Retry operation aborted" ∧ a.name = "AbortError" ∧
        a.code = "ABORT_ERR") ∧
    (∀ err, (execute opts op tr).outcome = RetryOutcome.maxAttemptsE err →
      err.code = "429" ∧ err.retryCount = opts.maxAttempts ∧
      op err.retryCount.toNat = Except.error err.originalError ∧
      err.message = "Max retry reached: " ++ toString err.retryCount ++
        ", original error: " ++ err.originalError.message) := by
  obtain ⟨hMA, -, -, -, -⟩ := createRetryHandler_preserves opts
  constructor
  · intro a h
    unfold execute retryAsync at h
    have ha := retryGo_abortE_shape (createRetryHandler opts) op tr
      ((createRetryHandler opts).maxAttempts + 1).toNat 0 (createRetryHandler opts).backOff a h
    subst ha
    exact ⟨rfl, rfl, rfl⟩
  · intro err h
    unfold execute retryAsync at h
    obtain ⟨h1, h2, h3⟩ := retryGo_maxAttemptsE_shape (createRetryHandler opts) op tr
      ((createRetryHandler opts).maxAttempts + 1).toNat 0 (createRetryHandler opts).backOff
      err h
    refine ⟨?_, by rw [h1, hMA], h2, ?_⟩
    · rw [h3]
      rfl
    · rw [h3]
      simp [mkMaxAttemptsError]

/-- C10 witness: the field shapes read off a pre-aborted execution and an
exhausted execution of `{ maxAttempts: 1 }`. -/
theorem error_shapes_witness :
    ((mkAbortError "Retry operation aborted").message = "Retry operation aborted" ∧
     (mkAbortError "Retry operation aborted").name = "AbortError" ∧
     (mkAbortError "Retry operation aborted").code = "ABORT_ERR") ∧
    ((mkMaxAttemptsError errPlain 1).code = "429" ∧
     (mkMaxAttemptsError errPlain 1).retryCount = optsPlain1.maxAttempts ∧
     opAlwaysFail (mkMaxAttemptsError errPlain 1).retryCount.toNat =
       Except.error (mkMaxAttemptsError errPlain 1).originalError ∧
     (mkMaxAttemptsError errPlain 1).message =
       "Max retry reached: " ++ toString (mkMaxAttemptsError errPlain 1).retryCount ++
         ", original error: " ++ (mkMaxAttemptsError errPlain 1).originalError.message) :=
  ⟨(error_shapes optsPlain1 opAlwaysFail trAbortedAtStart).1
      (mkAbortError "Retry operation aborted") (by decide),
   (error_shapes optsPlain1 opAlwaysFail neverAborted).2
      (mkMaxAttemptsError errPlain 1) (by decide)⟩

end RetryDecorator
